import Mathlib

/-!
Shallow embedding of `core.py` of the `canmaps` repository (a Canadian
postal-code driving-distance tool) and verification of its specification.

Modelling conventions:
* Python strings are Lean `String`s; character-level work is done on
  `String.data : List Char`.  Python's character classes (`str.upper`,
  `str.isalnum`, the regex classes `[A-Z]`, `\d`, `\s`) are modelled over
  ASCII, which is the alphabet the program's data (Canadian postal codes,
  decimal coordinates) lives in.
* Python floats are modelled as exact decimals (`Dec`): every numeric
  value handled by the program comes from a matched decimal literal, and
  the program never does arithmetic on, or compares, coordinate values of
  distinct provenance, so IEEE rounding is irrelevant to the verified
  properties.
* Python dicts are modelled as association lists with dict assignment
  semantics (`dset` / `vset`: overwrite in place, else append), which
  preserves Python's insertion order.
* File I/O (candidate paths, CSV parsing, header-based column detection)
  is abstracted away: a gazetteer source is a list of `GazRow` records
  holding the string contents of the three detected columns, and a study
  table is a list of records.  The external routing service
  (`route_km_via_ors`, which performs a network call) is modelled as an
  injected function returning `Except String Dec`.
* `time.sleep` pacing has no effect on the produced values and is dropped.
-/

/-! ### ASCII character classes (model of Python's `re` classes and `str` methods) -/

def isWS (c : Char) : Bool := c.toNat = 32 || (9 ≤ c.toNat && c.toNat ≤ 13)

def isUpperAZ (c : Char) : Bool := 65 ≤ c.toNat && c.toNat ≤ 90

def isLowerAZ (c : Char) : Bool := 97 ≤ c.toNat && c.toNat ≤ 122

def isDigitC (c : Char) : Bool := 48 ≤ c.toNat && c.toNat ≤ 57

def isAlnumPy (c : Char) : Bool := isUpperAZ c || isLowerAZ c || isDigitC c

/-- Model of Python's `str.upper` on one character (ASCII). -/
def pyUpper (c : Char) : Char :=
  if isLowerAZ c then Char.ofNat (c.toNat - 32) else c

/-! ### The postal-code regex `([A-Z]\s*\d\s*[A-Z]\s*\d\s*[A-Z]\s*\d)`

`matchSeq` matches a sequence of character classes separated by `\s*` at
the head of a list, returning the full matched group (separating
whitespace included), exactly as `re.match` would at that position;
`reSearch` is `re.search`: it tries every start position left to right. -/

inductive CharClass where
  | upper
  | digit
deriving DecidableEq

def classFn : CharClass → Char → Bool
  | .upper => isUpperAZ
  | .digit => isDigitC

def postalPat : List CharClass :=
  [.upper, .digit, .upper, .digit, .upper, .digit]

def matchSeq : List CharClass → List Char → Option (List Char)
  | [], _ => some []
  | _ :: _, [] => none
  | cl :: cls, c :: cs =>
    if classFn cl c then
      match cls with
      | [] => some [c]
      | _ :: _ =>
        match matchSeq cls (cs.dropWhile isWS) with
        | some g => some (c :: (cs.takeWhile isWS ++ g))
        | none => none
    else none

def reSearch : List Char → Option (List Char)
  | [] => none
  | c :: cs =>
    match matchSeq postalPat (c :: cs) with
    | some g => some g
    | none => reSearch cs

/-- `normalize_postal` on the character list of the input string:
uppercase, search for the first pattern occurrence, keep its alphanumeric
characters, and (after the defensive length check) insert the space. -/
def normL (l : List Char) : List Char :=
  let s := l.map pyUpper
  match reSearch s with
  | none => []
  | some g =>
    let alnum := g.filter isAlnumPy
    if alnum.length = 6 then alnum.take 3 ++ ' ' :: alnum.drop 3 else []

/-- `core.normalize_postal` (string inputs; the Python function returns `""`
for any non-string input before this code path is reached). -/
def normalize_postal (pc : String) : String :=
  String.mk (normL pc.data)

example : normalize_postal "  v6t 1z4 , Canada" = "V6T 1Z4" := by decide
example : normalize_postal "  v6t-1z4 , Canada" = "" := by decide
example : normalize_postal "12345" = "" := by decide
example : normalize_postal "" = "" := by decide
example : normalize_postal "V6T 1Z4" = "V6T 1Z4" := by decide

/-! ### Decimal-number extraction (model of `re.search(r'[-+]?\d+(?:\.\d+)?', s)`
followed by `float(...)`) -/

/-- Model of Python's `str.strip` (ASCII whitespace). -/
def pyStrip (l : List Char) : List Char :=
  ((l.dropWhile isWS).reverse.dropWhile isWS).reverse

/-- The token matched by `\d+(?:\.\d+)?` at a position whose head is a digit. -/
def numToken (l : List Char) : List Char :=
  let ds := l.takeWhile isDigitC
  match l.dropWhile isDigitC with
  | '.' :: r =>
    let fs := r.takeWhile isDigitC
    if fs.isEmpty then ds else ds ++ '.' :: fs
  | _ => ds

/-- `re.search(r'[-+]?\d+(?:\.\d+)?', ·)`: first (leftmost) match. -/
def searchNum : List Char → Option (List Char)
  | [] => none
  | c :: cs =>
    if isDigitC c then some (numToken (c :: cs))
    else if c = '-' || c = '+' then
      match cs with
      | d :: _ => if isDigitC d then some (c :: numToken cs) else searchNum cs
      | [] => none
    else searchNum cs

def digitsVal (l : List Char) : Nat :=
  l.foldl (fun n c => 10 * n + (c.toNat - 48)) 0

/-- A Python float arising in this program: always the value of a matched
decimal literal, represented exactly as `mant / 10 ^ frac` (the program
stores, swaps and returns these values but never computes with or compares
values of distinct provenance, so exact decimals model them faithfully). -/
structure Dec where
  mant : Int
  frac : Nat
deriving DecidableEq

/-- Value of an unsigned decimal token (integer part, optional fraction). -/
def magDec (l : List Char) : Dec :=
  let ip := l.takeWhile isDigitC
  match l.dropWhile isDigitC with
  | '.' :: fr => ⟨Int.ofNat (digitsVal ip * 10 ^ fr.length + digitsVal fr), fr.length⟩
  | _ => ⟨Int.ofNat (digitsVal ip), 0⟩

/-- `float(tok)` on a token matched by `[-+]?\d+(?:\.\d+)?`. -/
def tokenToDec (tok : List Char) : Dec :=
  match tok with
  | '-' :: rest => ⟨-(magDec rest).mant, (magDec rest).frac⟩
  | '+' :: rest => magDec rest
  | _ => magDec tok

/-- `parse_float` of `build_postal_lookup_from_df`, also the inline
`float(re.search(...).group(0))` parsing of `load_gazetteer_subset` (both
strip the string and take the first signed decimal token; the `pd.isna`
guard of the former cannot fire on string cells). -/
def parse_float (s : String) : Option Dec :=
  match searchNum (pyStrip s.data) with
  | some tok => some (tokenToDec tok)
  | none => none

example : parse_float " 49.2827 " = some ⟨492827, 4⟩ := by decide
example : parse_float "-123.1207" = some ⟨-1231207, 4⟩ := by decide
example : parse_float "nan" = none := by decide
example : parse_float "lat: -49" = some ⟨-49, 0⟩ := by decide
example : parse_float "12." = some ⟨12, 0⟩ := by decide

/-! ### Dict model -/

abbrev Coord := Dec × Dec
abbrev Lookup := List (String × Coord)

/-- Python dict read `m.get(k)` / `m[k]`. -/
def dget : Lookup → String → Option Coord
  | [], _ => none
  | (k', v') :: t, k => if k' = k then some v' else dget t k

/-- Python dict assignment `m[k] = v`: overwrite in place, else append. -/
def dset : Lookup → String → Coord → Lookup
  | [], k, v => [(k, v)]
  | (k', v') :: t, k, v => if k' = k then (k, v) :: t else (k', v') :: dset t k v

/-- `s.replace(" ", "")`. -/
def nospaceS (s : String) : String :=
  String.mk (s.data.filter (fun c => c != ' '))

/-! ### Gazetteer builders -/

/-- One gazetteer source row: the string contents of the three selected /
detected columns (postal, latitude, longitude). -/
structure GazRow where
  postal : String
  lat : String
  lon : String
deriving DecidableEq

/-- One row of `build_postal_lookup_from_df`'s loop. -/
def build_step (m : Lookup) (r : GazRow) : Lookup :=
  let alnum := (r.postal.data.map pyUpper).filter isAlnumPy
  if alnum.isEmpty then m
  else
    let key_spaced :=
      if alnum.length = 6 then String.mk (alnum.take 3 ++ ' ' :: alnum.drop 3)
      else String.mk alnum
    let key_nospace := String.mk alnum
    match parse_float r.lat, parse_float r.lon with
    | some latf, some lonf => dset (dset m key_spaced (latf, lonf)) key_nospace (latf, lonf)
    | _, _ => m

/-- `core.build_postal_lookup_from_df` (rows of the selected columns). -/
def build_postal_lookup_from_df (rows : List GazRow) : Lookup :=
  rows.foldl build_step []

/-! ### Streaming subset extractor -/

/-- Python `set.add`. -/
def addSet (s : List String) (x : String) : List String :=
  if x ∈ s then s else s ++ [x]

/-- The `needed_norm` set of `load_gazetteer_subset`: both variants of each
successfully normalized requested code. -/
def neededNorm (needed_postals : List String) : List String :=
  needed_postals.foldl
    (fun acc pc =>
      let n := normalize_postal pc
      if n = "" then acc else addSet (addSet acc n) (nospaceS n))
    []

/-- One row of the chunk scan of `load_gazetteer_subset`. -/
def subsetStep (needed : List String) (m : Lookup) (r : GazRow) : Lookup :=
  let key := normalize_postal r.postal
  if key = "" then m
  else if key ∉ needed ∧ nospaceS key ∉ needed then m
  else
    match parse_float r.lat, parse_float r.lon with
    | some latf, some lonf => dset (dset m key (latf, lonf)) (nospaceS key) (latf, lonf)
    | _, _ => m

/-- The early-exit test run after each chunk. -/
def allFound (needed : List String) (m : Lookup) : Bool :=
  needed.all (fun k => (dget m k).isSome || (dget m (nospaceS k)).isSome)

/-- Fuel-driven chunking helper (structural recursion so that the kernel
can evaluate it; the fuel is always at least the list length, so the
zero-fuel case is unreachable). -/
def chunksOfF (n : Nat) : Nat → List GazRow → List (List GazRow)
  | _, [] => []
  | 0, _ :: _ => []
  | fuel + 1, r :: rs =>
    (r :: rs).take (max n 1) :: chunksOfF n fuel ((r :: rs).drop (max n 1))

/-- `pd.read_csv(..., chunksize=n)`: bounded sequential chunks (pandas
requires a positive chunk size, hence `max n 1`). -/
def chunksOf (n : Nat) (l : List GazRow) : List (List GazRow) :=
  chunksOfF n l.length l

/-- The chunk loop of `load_gazetteer_subset`, with its early exit. -/
def scanChunks (needed : List String) (m : Lookup) : List (List GazRow) → Lookup
  | [] => m
  | c :: cs =>
    let m' := c.foldl (subsetStep needed) m
    if allFound needed m' then m' else scanChunks needed m' cs

/-- `core.load_gazetteer_subset`, with the file source abstracted to its
row list (candidate-path iteration, header-based column detection and CSV
decoding happen before this logic and are not modelled). -/
def load_gazetteer_subset (needed_postals : List String) (rows : List GazRow)
    (chunksize : Nat) : Lookup :=
  let nn := neededNorm needed_postals
  if nn.isEmpty then [] else scanChunks nn [] (chunksOf chunksize rows)

example :
    load_gazetteer_subset ["v6t 1z4"]
      [⟨"A1A 1A1", "1", "2"⟩, ⟨"V6T 1Z4", "49", "-123"⟩] 1 =
      [("V6T 1Z4", (⟨49, 0⟩, ⟨-123, 0⟩)), ("V6T1Z4", (⟨49, 0⟩, ⟨-123, 0⟩))] := by
  decide

/-! ### Routing client and batch resolver -/

/-- `core.get_ors_client`: `api_key or os.environ.get("ORS_API_KEY", "")`,
then raise if still empty.  `env_ors` is the value of the `ORS_API_KEY`
environment variable (empty when unset); the returned client is modelled
by the credential it holds. -/
def get_ors_client (api_key : Option String) (env_ors : String) : Except String String :=
  let k :=
    match api_key with
    | none => env_ors
    | some s => if s = "" then env_ors else s
  if k = "" then Except.error "OpenRouteService API key is missing."
  else Except.ok k

/-- A cell value of the output table: a passed-through string cell, the
numeric `distance_km`, or Python `None` (absent). -/
inductive Val where
  | vstr (s : String)
  | vnum (q : Dec)
  | vnone
deriving DecidableEq

instance {ε α : Type} [DecidableEq ε] [DecidableEq α] : DecidableEq (Except ε α) :=
  fun a b =>
    match a, b with
    | Except.error e₁, Except.error e₂ =>
      if h : e₁ = e₂ then isTrue (by rw [h])
      else isFalse (fun hh => h (Except.error.inj hh))
    | Except.ok v₁, Except.ok v₂ =>
      if h : v₁ = v₂ then isTrue (by rw [h])
      else isFalse (fun hh => h (Except.ok.inj hh))
    | Except.error _, Except.ok _ => isFalse (fun hh => Except.noConfusion hh)
    | Except.ok _, Except.error _ => isFalse (fun hh => Except.noConfusion hh)

/-- An input study record: column name to string cell value (CSV cells),
in column order. -/
abbrev Rec := List (String × String)

abbrev OutRec := List (String × Val)

/-- Python `rec.get(col, None)`. -/
def rget : Rec → String → Option String
  | [], _ => none
  | (k', v') :: t, k => if k' = k then some v' else rget t k

/-- Python dict assignment on an output record. -/
def vset : OutRec → String → Val → OutRec
  | [], k, v => [(k, v)]
  | (k', v') :: t, k, v => if k' = k then (k, v) :: t else (k', v') :: vset t k v

/-- The body of `process_dataframe`'s per-row loop.  `svc` is the injected
external routing call (`route_km_via_ors` with its client): it receives
the `(lon, lat)` origin and destination and either returns kilometers or
fails with the exception text. -/
def processRow (svc : Coord → Coord → Except String Dec) (origin : Coord)
    (lookup : Lookup) (postal_col : String) (rec : Rec) : OutRec :=
  let postal_val := rget rec postal_col
  let pc := normalize_postal (match postal_val with | none => "" | some s => s)
  let de : Option Dec × String :=
    if pc = "" then (none, "Invalid Postal Code")
    else
      match dget lookup pc with
      | none => (none, "Invalid Postal Code")
      | some (lat, lon) =>
        match svc origin (lon, lat) with
        | Except.ok d => (some d, "")
        | Except.error e => (none, "Routing error: " ++ e)
  let out := rec.map (fun kv => (kv.1, Val.vstr kv.2))
  vset (vset out "distance_km"
      (match de.1 with | some d => Val.vnum d | none => Val.vnone))
    "error" (Val.vstr de.2)

/-- `core.process_dataframe`: acquire the client (fatal on failure), then
one pass over the rows.  `study_id_col` is stripped but unused, as in the
source; `sleep_s` only paces the loop and does not affect the result. -/
def process_dataframe (svc : Coord → Coord → Except String Dec) (df : List Rec)
    (study_id_col postal_col : String) (origin_lon origin_lat : Dec)
    (postal_lookup : Lookup) (api_key : String) (env_ors : String)
    (sleep_s : Dec) : Except String (List OutRec) :=
  let _sid := String.mk (pyStrip study_id_col.data)
  let pcol := String.mk (pyStrip postal_col.data)
  let _pace := sleep_s
  match get_ors_client (some api_key) env_ors with
  | Except.error e => Except.error e
  | Except.ok _client =>
    Except.ok (df.map (processRow svc (origin_lon, origin_lat) postal_lookup pcol))

example :
    process_dataframe (fun _ _ => Except.ok ⟨42, 0⟩)
      [[("id", "1"), ("pc", "V6T 1Z4")]] "id" "pc" ⟨-119, 0⟩ ⟨49, 0⟩
      [("V6T 1Z4", (⟨49, 0⟩, ⟨-123, 0⟩))] "key" "" ⟨1, 0⟩ =
      Except.ok [[("id", Val.vstr "1"), ("pc", Val.vstr "V6T 1Z4"),
        ("distance_km", Val.vnum ⟨42, 0⟩), ("error", Val.vstr "")]] := by
  decide

example :
    process_dataframe (fun _ _ => Except.ok ⟨42, 0⟩)
      [[("id", "1"), ("pc", "ZZZ999")]] "id" "pc" ⟨-119, 0⟩ ⟨49, 0⟩
      [("V6T 1Z4", (⟨49, 0⟩, ⟨-123, 0⟩))] "key" "" ⟨1, 0⟩ =
      Except.ok [[("id", Val.vstr "1"), ("pc", Val.vstr "ZZZ999"),
        ("distance_km", Val.vnone), ("error", Val.vstr "Invalid Postal Code")]] := by
  decide

/-! ### Character-class facts -/

theorem isWS_false_of_upper {c : Char} (h : isUpperAZ c = true) : isWS c = false := by
  simp only [isUpperAZ, Bool.and_eq_true, decide_eq_true_eq] at h
  simp only [isWS, Bool.or_eq_false_iff, Bool.and_eq_false_iff, decide_eq_false_iff_not]
  omega

theorem isWS_false_of_digit {c : Char} (h : isDigitC c = true) : isWS c = false := by
  simp only [isDigitC, Bool.and_eq_true, decide_eq_true_eq] at h
  simp only [isWS, Bool.or_eq_false_iff, Bool.and_eq_false_iff, decide_eq_false_iff_not]
  omega

theorem isAlnumPy_of_upper {c : Char} (h : isUpperAZ c = true) : isAlnumPy c = true := by
  simp [isAlnumPy, h]

theorem isAlnumPy_of_digit {c : Char} (h : isDigitC c = true) : isAlnumPy c = true := by
  simp [isAlnumPy, h]

theorem isAlnumPy_false_of_ws {c : Char} (h : isWS c = true) : isAlnumPy c = false := by
  simp only [isWS, Bool.or_eq_true, Bool.and_eq_true, decide_eq_true_eq] at h
  simp only [isAlnumPy, isUpperAZ, isLowerAZ, isDigitC, Bool.or_eq_false_iff,
    Bool.and_eq_false_iff, decide_eq_false_iff_not]
  omega

theorem pyUpper_of_upper {c : Char} (h : isUpperAZ c = true) : pyUpper c = c := by
  simp only [isUpperAZ, Bool.and_eq_true, decide_eq_true_eq] at h
  simp only [pyUpper, isLowerAZ, ite_eq_right_iff, Bool.and_eq_true, decide_eq_true_eq]
  omega

theorem pyUpper_of_digit {c : Char} (h : isDigitC c = true) : pyUpper c = c := by
  simp only [isDigitC, Bool.and_eq_true, decide_eq_true_eq] at h
  simp only [pyUpper, isLowerAZ, ite_eq_right_iff, Bool.and_eq_true, decide_eq_true_eq]
  omega

theorem ne_space_of_upper {c : Char} (h : isUpperAZ c = true) : c ≠ ' ' := by
  intro hc; subst hc; exact absurd h (by decide)

theorem ne_space_of_digit {c : Char} (h : isDigitC c = true) : c ≠ ' ' := by
  intro hc; subst hc; exact absurd h (by decide)

/-! ### `takeWhile` / `dropWhile` over a whitespace run -/

theorem takeWhile_ws_append {w : List Char} (hw : ∀ x ∈ w, isWS x = true)
    {c : Char} (hc : isWS c = false) (r : List Char) :
    (w ++ c :: r).takeWhile isWS = w := by
  induction w with
  | nil => simp [List.takeWhile, hc]
  | cons a t ih =>
    have ha : isWS a = true := hw a (by simp)
    have ht : ∀ x ∈ t, isWS x = true := fun x hx => hw x (by simp [hx])
    simp [List.takeWhile, ha, ih ht]

theorem dropWhile_ws_append {w : List Char} (hw : ∀ x ∈ w, isWS x = true)
    {c : Char} (hc : isWS c = false) (r : List Char) :
    (w ++ c :: r).dropWhile isWS = c :: r := by
  induction w with
  | nil => simp [List.dropWhile, hc]
  | cons a t ih =>
    have ha : isWS a = true := hw a (by simp)
    have ht : ∀ x ∈ t, isWS x = true := fun x hx => hw x (by simp [hx])
    simp [List.dropWhile, ha, ih ht]

theorem filter_alnum_ws_nil {w : List Char} (hw : ∀ x ∈ w, isWS x = true) :
    w.filter isAlnumPy = [] := by
  induction w with
  | nil => rfl
  | cons a t ih =>
    have ha := isAlnumPy_false_of_ws (hw a (by simp))
    have ht : ∀ x ∈ t, isWS x = true := fun x hx => hw x (by simp [hx])
    simp [List.filter, ha, ih ht]

/-! ### `matchSeq` computation and inversion -/

theorem matchSeq_last {cl : CharClass} {c : Char} (hc : classFn cl c = true)
    (r : List Char) : matchSeq [cl] (c :: r) = some [c] := by
  simp [matchSeq, hc]

theorem matchSeq_step {cl cl2 : CharClass} {cls : List CharClass} {c : Char}
    {w : List Char} (hc : classFn cl c = true) (hw : ∀ x ∈ w, isWS x = true)
    {c' : Char} (hc' : isWS c' = false) (r : List Char) :
    matchSeq (cl :: cl2 :: cls) (c :: (w ++ c' :: r)) =
      (matchSeq (cl2 :: cls) (c' :: r)).map (fun g => c :: (w ++ g)) := by
  rw [matchSeq]
  simp only [hc, if_true]
  rw [dropWhile_ws_append hw hc', takeWhile_ws_append hw hc']
  cases matchSeq (cl2 :: cls) (c' :: r) <;> simp

theorem matchSeq_inv_last {cl : CharClass} {l g : List Char}
    (h : matchSeq [cl] l = some g) :
    ∃ c cs, l = c :: cs ∧ classFn cl c = true ∧ g = [c] := by
  cases l with
  | nil => simp [matchSeq] at h
  | cons c cs =>
    rw [matchSeq] at h
    by_cases hc : classFn cl c = true
    · simp only [hc, if_true] at h
      exact ⟨c, cs, rfl, hc, (Option.some.inj h).symm⟩
    · simp only [Bool.not_eq_true] at hc
      simp [hc] at h

theorem matchSeq_inv_cons {cl cl2 : CharClass} {cls : List CharClass} {l g : List Char}
    (h : matchSeq (cl :: cl2 :: cls) l = some g) :
    ∃ c cs g', l = c :: cs ∧ classFn cl c = true ∧
      matchSeq (cl2 :: cls) (cs.dropWhile isWS) = some g' ∧
      g = c :: (cs.takeWhile isWS ++ g') := by
  cases l with
  | nil => simp [matchSeq] at h
  | cons c cs =>
    rw [matchSeq] at h
    by_cases hc : classFn cl c = true
    · simp only [hc, if_true] at h
      cases hm : matchSeq (cl2 :: cls) (cs.dropWhile isWS) with
      | none => rw [hm] at h; simp at h
      | some g' =>
        rw [hm] at h
        exact ⟨c, cs, g', rfl, hc, hm, (Option.some.inj h).symm⟩
    · simp only [Bool.not_eq_true] at hc
      simp [hc] at h

theorem matchSeq_filter : ∀ {cls : List CharClass} {l g : List Char},
    matchSeq cls l = some g →
    List.Forall₂ (fun cl c => classFn cl c = true) cls (g.filter isAlnumPy)
  | [], l, g, h => by
    rw [matchSeq] at h
    simp [← Option.some.inj h]
  | [cl], l, g, h => by
    obtain ⟨c, cs, _, hc, hg⟩ := matchSeq_inv_last h
    have halnum : isAlnumPy c = true := by
      cases cl with
      | upper => exact isAlnumPy_of_upper hc
      | digit => exact isAlnumPy_of_digit hc
    subst hg
    simp [List.filter, halnum, hc]
  | cl :: cl2 :: cls, l, g, h => by
    obtain ⟨c, cs, g', _, hc, hm, hg⟩ := matchSeq_inv_cons h
    have halnum : isAlnumPy c = true := by
      cases cl with
      | upper => exact isAlnumPy_of_upper hc
      | digit => exact isAlnumPy_of_digit hc
    have hws : ∀ x ∈ cs.takeWhile isWS, isWS x = true :=
      fun x hx => List.mem_takeWhile_imp hx
    subst hg
    rw [List.filter_cons_of_pos (by simp [halnum]), List.filter_append,
      filter_alnum_ws_nil hws, List.nil_append]
    exact List.Forall₂.cons hc (matchSeq_filter hm)

theorem matchSeq_nonnil {cl : CharClass} {cls : List CharClass} {g : List Char}
    (h : matchSeq (cl :: cls) [] = some g) : False := by
  simp [matchSeq] at h

/-! ### Pattern predicates used to state the normalizer's contract -/

def ClassesOK (c0 c1 c2 c3 c4 c5 : Char) : Prop :=
  isUpperAZ c0 = true ∧ isDigitC c1 = true ∧ isUpperAZ c2 = true ∧
  isDigitC c3 = true ∧ isUpperAZ c4 = true ∧ isDigitC c5 = true

instance (c0 c1 c2 c3 c4 c5 : Char) : Decidable (ClassesOK c0 c1 c2 c3 c4 c5) := by
  unfold ClassesOK; infer_instance

def AllWS (w : List Char) : Prop := ∀ x ∈ w, isWS x = true

instance (w : List Char) : Decidable (AllWS w) := by
  unfold AllWS; infer_instance

/-- The uppercased input contains an occurrence of the pattern
"letter, digit, letter, digit, letter, digit", the six characters
separated by (possibly empty) whitespace runs. -/
def HasPostalPat (s : String) : Prop :=
  ∃ pre c0 w1 c1 w2 c2 w3 c3 w4 c4 w5 c5 rest,
    s.data.map pyUpper =
      pre ++ c0 :: (w1 ++ c1 :: (w2 ++ c2 :: (w3 ++ c3 :: (w4 ++ c4 :: (w5 ++ c5 :: rest))))) ∧
    ClassesOK c0 c1 c2 c3 c4 c5 ∧
    AllWS w1 ∧ AllWS w2 ∧ AllWS w3 ∧ AllWS w4 ∧ AllWS w5

/-- `matchSeq` succeeds on a whitespace-separated pattern occurrence and
returns exactly the group up to its last character. -/
theorem matchSeq_postal {c0 c1 c2 c3 c4 c5 : Char} {w1 w2 w3 w4 w5 : List Char}
    (hcl : ClassesOK c0 c1 c2 c3 c4 c5)
    (h1 : AllWS w1) (h2 : AllWS w2) (h3 : AllWS w3) (h4 : AllWS w4) (h5 : AllWS w5)
    (rest : List Char) :
    matchSeq postalPat
      (c0 :: (w1 ++ c1 :: (w2 ++ c2 :: (w3 ++ c3 :: (w4 ++ c4 :: (w5 ++ c5 :: rest)))))) =
      some (c0 :: (w1 ++ c1 :: (w2 ++ c2 :: (w3 ++ c3 :: (w4 ++ c4 :: (w5 ++ [c5])))))) := by
  obtain ⟨k0, k1, k2, k3, k4, k5⟩ := hcl
  have K0 : classFn CharClass.upper c0 = true := k0
  have K1 : classFn CharClass.digit c1 = true := k1
  have K2 : classFn CharClass.upper c2 = true := k2
  have K3 : classFn CharClass.digit c3 = true := k3
  have K4 : classFn CharClass.upper c4 = true := k4
  have K5 : classFn CharClass.digit c5 = true := k5
  rw [postalPat]
  rw [matchSeq_step K0 h1 (isWS_false_of_digit k1)]
  rw [matchSeq_step K1 h2 (isWS_false_of_upper k2)]
  rw [matchSeq_step K2 h3 (isWS_false_of_digit k3)]
  rw [matchSeq_step K3 h4 (isWS_false_of_upper k4)]
  rw [matchSeq_step K4 h5 (isWS_false_of_digit k5)]
  rw [matchSeq_last K5]
  rfl

/-- Filtering the matched group down to its alphanumeric characters
yields exactly the six matched characters. -/
theorem filter_postal_group {c0 c1 c2 c3 c4 c5 : Char} {w1 w2 w3 w4 w5 : List Char}
    (hcl : ClassesOK c0 c1 c2 c3 c4 c5)
    (h1 : AllWS w1) (h2 : AllWS w2) (h3 : AllWS w3) (h4 : AllWS w4) (h5 : AllWS w5) :
    (c0 :: (w1 ++ c1 :: (w2 ++ c2 :: (w3 ++ c3 :: (w4 ++ c4 :: (w5 ++ [c5])))))).filter isAlnumPy
      = [c0, c1, c2, c3, c4, c5] := by
  obtain ⟨k0, k1, k2, k3, k4, k5⟩ := hcl
  simp only [List.filter_cons, List.filter_append, List.filter_nil,
    isAlnumPy_of_upper k0, isAlnumPy_of_digit k1, isAlnumPy_of_upper k2,
    isAlnumPy_of_digit k3, isAlnumPy_of_upper k4, isAlnumPy_of_digit k5,
    filter_alnum_ws_nil h1, filter_alnum_ws_nil h2, filter_alnum_ws_nil h3,
    filter_alnum_ws_nil h4, filter_alnum_ws_nil h5, if_true]
  simp

/-! ### `reSearch` lemmas -/

theorem reSearch_cons_some {c : Char} {cs g : List Char}
    (h : matchSeq postalPat (c :: cs) = some g) : reSearch (c :: cs) = some g := by
  simp [reSearch, h]

theorem reSearch_skip {pre : List Char} (hp : ∀ x ∈ pre, isUpperAZ x = false)
    (l : List Char) : reSearch (pre ++ l) = reSearch l := by
  induction pre with
  | nil => rfl
  | cons a t ih =>
    have ha : isUpperAZ a = false := hp a (by simp)
    have ht : ∀ x ∈ t, isUpperAZ x = false := fun x hx => hp x (by simp [hx])
    have hm : matchSeq postalPat (a :: (t ++ l)) = none := by
      rw [postalPat, matchSeq]
      simp [classFn, ha]
    simp [reSearch, hm, ih ht]

theorem reSearch_isSome_of_matchSeq :
    ∀ (pre : List Char) {l g : List Char}, matchSeq postalPat l = some g →
      (reSearch (pre ++ l)).isSome = true
  | [], l, g, h => by
    cases l with
    | nil => exact absurd h (by rw [postalPat]; exact fun hh => matchSeq_nonnil hh)
    | cons c cs => simp [reSearch_cons_some h]
  | a :: t, l, g, h => by
    have ih := reSearch_isSome_of_matchSeq t h
    rw [List.cons_append, reSearch]
    cases hm : matchSeq postalPat (a :: (t ++ l)) with
    | some g' => simp
    | none => simpa using ih

theorem reSearch_split : ∀ {l g : List Char}, reSearch l = some g →
    ∃ pre rest, l = pre ++ rest ∧ matchSeq postalPat rest = some g
  | [], g, h => by simp [reSearch] at h
  | c :: cs, g, h => by
    rw [reSearch] at h
    cases hm : matchSeq postalPat (c :: cs) with
    | some g' =>
      rw [hm] at h
      exact ⟨[], c :: cs, rfl, by rw [hm, Option.some.inj h]⟩
    | none =>
      rw [hm] at h
      obtain ⟨pre, rest, hl, hrest⟩ := reSearch_split h
      exact ⟨c :: pre, rest, by rw [List.cons_append, hl], hrest⟩

/-- Decomposition of a successful six-class match back into its six
characters and separating whitespace runs. -/
theorem matchSeq_postal_decomp {l g : List Char}
    (h : matchSeq postalPat l = some g) :
    ∃ c0 w1 c1 w2 c2 w3 c3 w4 c4 w5 c5 rest,
      l = c0 :: (w1 ++ c1 :: (w2 ++ c2 :: (w3 ++ c3 :: (w4 ++ c4 :: (w5 ++ c5 :: rest))))) ∧
      ClassesOK c0 c1 c2 c3 c4 c5 ∧
      AllWS w1 ∧ AllWS w2 ∧ AllWS w3 ∧ AllWS w4 ∧ AllWS w5 := by
  rw [postalPat] at h
  obtain ⟨c0, cs0, g1, hl0, k0, hm1, -⟩ := matchSeq_inv_cons h
  obtain ⟨c1, cs1, g2, hl1, k1, hm2, -⟩ := matchSeq_inv_cons hm1
  obtain ⟨c2, cs2, g3, hl2, k2, hm3, -⟩ := matchSeq_inv_cons hm2
  obtain ⟨c3, cs3, g4, hl3, k3, hm4, -⟩ := matchSeq_inv_cons hm3
  obtain ⟨c4, cs4, g5, hl4, k4, hm5, -⟩ := matchSeq_inv_cons hm4
  obtain ⟨c5, cs5, hl5, k5, -⟩ := matchSeq_inv_last hm5
  have E4 : cs4 = cs4.takeWhile isWS ++ (c5 :: cs5) := by
    rw [← hl5, List.takeWhile_append_dropWhile]
  have E3 : cs3 = cs3.takeWhile isWS ++ (c4 :: (cs4.takeWhile isWS ++ (c5 :: cs5))) := by
    rw [← E4, ← hl4, List.takeWhile_append_dropWhile]
  have E2 : cs2 = cs2.takeWhile isWS ++
      (c3 :: (cs3.takeWhile isWS ++ (c4 :: (cs4.takeWhile isWS ++ (c5 :: cs5))))) := by
    rw [← E3, ← hl3, List.takeWhile_append_dropWhile]
  have E1 : cs1 = cs1.takeWhile isWS ++ (c2 :: (cs2.takeWhile isWS ++
      (c3 :: (cs3.takeWhile isWS ++ (c4 :: (cs4.takeWhile isWS ++ (c5 :: cs5))))))) := by
    rw [← E2, ← hl2, List.takeWhile_append_dropWhile]
  have E0 : cs0 = cs0.takeWhile isWS ++ (c1 :: (cs1.takeWhile isWS ++ (c2 :: (cs2.takeWhile isWS ++
      (c3 :: (cs3.takeWhile isWS ++ (c4 :: (cs4.takeWhile isWS ++ (c5 :: cs5))))))))) := by
    rw [← E1, ← hl1, List.takeWhile_append_dropWhile]
  exact ⟨c0, cs0.takeWhile isWS, c1, cs1.takeWhile isWS, c2, cs2.takeWhile isWS,
    c3, cs3.takeWhile isWS, c4, cs4.takeWhile isWS, c5, cs5,
    hl0.trans (congrArg (fun t => c0 :: t) E0),
    ⟨k0, k1, k2, k3, k4, k5⟩,
    fun x hx => List.mem_takeWhile_imp hx, fun x hx => List.mem_takeWhile_imp hx,
    fun x hx => List.mem_takeWhile_imp hx, fun x hx => List.mem_takeWhile_imp hx,
    fun x hx => List.mem_takeWhile_imp hx⟩

/-! ### Shape of the normalizer's results -/

/-- A successful search always yields a canonical spaced result whose six
characters alternate letter/digit. -/
theorem normL_of_reSearch_some {l g : List Char}
    (hs : reSearch (l.map pyUpper) = some g) :
    ∃ c0 c1 c2 c3 c4 c5, ClassesOK c0 c1 c2 c3 c4 c5 ∧
      g.filter isAlnumPy = [c0, c1, c2, c3, c4, c5] ∧
      normL l = [c0, c1, c2, ' ', c3, c4, c5] := by
  obtain ⟨pre, rest, -, hmatch⟩ := reSearch_split hs
  have hforall := matchSeq_filter hmatch
  rw [postalPat] at hforall
  obtain ⟨x0, u0, k0, hforall, hu0⟩ := List.forall₂_cons_left_iff.mp hforall
  obtain ⟨x1, u1, k1, hforall, hu1⟩ := List.forall₂_cons_left_iff.mp hforall
  obtain ⟨x2, u2, k2, hforall, hu2⟩ := List.forall₂_cons_left_iff.mp hforall
  obtain ⟨x3, u3, k3, hforall, hu3⟩ := List.forall₂_cons_left_iff.mp hforall
  obtain ⟨x4, u4, k4, hforall, hu4⟩ := List.forall₂_cons_left_iff.mp hforall
  obtain ⟨x5, u5, k5, hforall, hu5⟩ := List.forall₂_cons_left_iff.mp hforall
  have hu5' : u5 = [] := List.forall₂_nil_left_iff.mp hforall
  subst hu5' hu5 hu4 hu3 hu2 hu1
  refine ⟨x0, x1, x2, x3, x4, x5, ⟨k0, k1, k2, k3, k4, k5⟩, hu0, ?_⟩
  rw [normL]
  simp only [hs]
  rw [hu0]
  rfl

theorem normL_shape {l : List Char} (h : normL l ≠ []) :
    ∃ c0 c1 c2 c3 c4 c5, ClassesOK c0 c1 c2 c3 c4 c5 ∧
      normL l = [c0, c1, c2, ' ', c3, c4, c5] := by
  cases hs : reSearch (l.map pyUpper) with
  | none => exact absurd (by rw [normL]; simp [hs]) h
  | some g =>
    obtain ⟨c0, c1, c2, c3, c4, c5, hcl, -, hn⟩ := normL_of_reSearch_some hs
    exact ⟨c0, c1, c2, c3, c4, c5, hcl, hn⟩

/-- The first-match computation of the normalizer: if the uppercased text
decomposes as noise (containing no uppercase letter) followed by a
whitespace-separated pattern occurrence, the result is exactly that
occurrence's six characters, spaced. -/
theorem normL_first_match {l pre : List Char} {c0 c1 c2 c3 c4 c5 : Char}
    {w1 w2 w3 w4 w5 rest : List Char}
    (hmap : l.map pyUpper =
      pre ++ c0 :: (w1 ++ c1 :: (w2 ++ c2 :: (w3 ++ c3 :: (w4 ++ c4 :: (w5 ++ c5 :: rest))))))
    (hpre : ∀ x ∈ pre, isUpperAZ x = false)
    (hcl : ClassesOK c0 c1 c2 c3 c4 c5)
    (h1 : AllWS w1) (h2 : AllWS w2) (h3 : AllWS w3) (h4 : AllWS w4) (h5 : AllWS w5) :
    normL l = [c0, c1, c2, ' ', c3, c4, c5] := by
  have hm := matchSeq_postal hcl h1 h2 h3 h4 h5 rest
  have hsearch : reSearch (l.map pyUpper) =
      some (c0 :: (w1 ++ c1 :: (w2 ++ c2 :: (w3 ++ c3 :: (w4 ++ c4 :: (w5 ++ [c5])))))) := by
    rw [hmap, reSearch_skip hpre, reSearch_cons_some hm]
  rw [normL]
  simp only [hsearch]
  rw [filter_postal_group hcl h1 h2 h3 h4 h5]
  rfl

theorem hasPostalPat_of_reSearch {s : String} {g : List Char}
    (hs : reSearch (s.data.map pyUpper) = some g) : HasPostalPat s := by
  obtain ⟨pre, rest, hsplit, hmatch⟩ := reSearch_split hs
  obtain ⟨c0, w1, c1, w2, c2, w3, c3, w4, c4, w5, c5, r, hrest, hcl, h1, h2, h3, h4, h5⟩ :=
    matchSeq_postal_decomp hmatch
  exact ⟨pre, c0, w1, c1, w2, c2, w3, c3, w4, c4, w5, c5, r,
    by rw [hsplit, hrest], hcl, h1, h2, h3, h4, h5⟩

theorem reSearch_isSome_of_hasPostalPat {s : String} (h : HasPostalPat s) :
    (reSearch (s.data.map pyUpper)).isSome = true := by
  obtain ⟨pre, c0, w1, c1, w2, c2, w3, c3, w4, c4, w5, c5, rest, hmap, hcl, h1, h2, h3, h4, h5⟩ := h
  have hm := matchSeq_postal hcl h1 h2 h3 h4 h5 rest
  rw [hmap]
  exact reSearch_isSome_of_matchSeq pre hm

theorem normL_eq_nil_of_not_hasPostalPat {s : String} (h : ¬ HasPostalPat s) :
    normL s.data = [] := by
  cases hs : reSearch (s.data.map pyUpper) with
  | none => rw [normL]; simp [hs]
  | some g => exact absurd (hasPostalPat_of_reSearch hs) h

/-- A canonical spaced code is a fixed point of `normL`. -/
theorem normL_canonical {c0 c1 c2 c3 c4 c5 : Char} (hcl : ClassesOK c0 c1 c2 c3 c4 c5) :
    normL [c0, c1, c2, ' ', c3, c4, c5] = [c0, c1, c2, ' ', c3, c4, c5] := by
  obtain ⟨k0, k1, k2, k3, k4, k5⟩ := hcl
  have hmap : [c0, c1, c2, ' ', c3, c4, c5].map pyUpper =
      [] ++ c0 :: ([] ++ c1 :: ([] ++ c2 :: ([' '] ++ c3 :: ([] ++ c4 :: ([] ++ c5 :: []))))) := by
    simp [pyUpper_of_upper k0, pyUpper_of_digit k1, pyUpper_of_upper k2,
      pyUpper_of_digit k3, pyUpper_of_upper k4, pyUpper_of_digit k5,
      show pyUpper ' ' = ' ' from rfl]
  exact normL_first_match hmap (by simp) ⟨k0, k1, k2, k3, k4, k5⟩
    (by simp [AllWS]) (by simp [AllWS]) (by intro x hx; simp at hx; subst hx; decide)
    (by simp [AllWS]) (by simp [AllWS])

/-! ### Claim theorems: the Postal Code Normalizer -/

/-- Claim C9: `normalize_postal` is idempotent — normalizing any string
twice gives the same result as normalizing it once; in particular every
non-empty output is a fixed point of the normalizer. -/
theorem normalize_postal_idempotent (s : String) :
    normalize_postal (normalize_postal s) = normalize_postal s := by
  by_cases h : normL s.data = []
  · rw [normalize_postal, normalize_postal, h]
    rfl
  · obtain ⟨c0, c1, c2, c3, c4, c5, hcl, hn⟩ := normL_shape h
    rw [normalize_postal, normalize_postal, hn]
    rw [show (String.mk [c0, c1, c2, ' ', c3, c4, c5]).data = [c0, c1, c2, ' ', c3, c4, c5]
      from rfl]
    rw [normL_canonical hcl]

/-- Claim C1 (corrected): the separators the normalizer tolerates between
the six pattern characters are whitespace runs, not hyphens.  For every
input whose uppercased text contains the pattern letter-digit-letter-digit-
letter-digit with whitespace separation, the result is the canonical
spaced uppercase form — exactly the first such occurrence's characters
when no uppercase letter precedes it — and for every input with no such
occurrence the result is the empty string. -/
theorem normalize_postal_whitespace_pattern :
    (∀ (s : String) (pre : List Char) (c0 : Char) (w1 : List Char) (c1 : Char)
        (w2 : List Char) (c2 : Char) (w3 : List Char) (c3 : Char) (w4 : List Char)
        (c4 : Char) (w5 : List Char) (c5 : Char) (rest : List Char),
      s.data.map pyUpper =
        pre ++ c0 :: (w1 ++ c1 :: (w2 ++ c2 :: (w3 ++ c3 :: (w4 ++ c4 :: (w5 ++ c5 :: rest))))) →
      (∀ x ∈ pre, isUpperAZ x = false) →
      ClassesOK c0 c1 c2 c3 c4 c5 →
      AllWS w1 → AllWS w2 → AllWS w3 → AllWS w4 → AllWS w5 →
      normalize_postal s = String.mk [c0, c1, c2, ' ', c3, c4, c5]) ∧
    (∀ s : String, HasPostalPat s →
      ∃ c0 c1 c2 c3 c4 c5, ClassesOK c0 c1 c2 c3 c4 c5 ∧
        normalize_postal s = String.mk [c0, c1, c2, ' ', c3, c4, c5]) ∧
    (∀ s : String, ¬ HasPostalPat s → normalize_postal s = "") := by
  refine ⟨?_, ?_, ?_⟩
  · intro s pre c0 w1 c1 w2 c2 w3 c3 w4 c4 w5 c5 rest hmap hpre hcl h1 h2 h3 h4 h5
    rw [normalize_postal, normL_first_match hmap hpre hcl h1 h2 h3 h4 h5]
  · intro s hp
    have hsome := reSearch_isSome_of_hasPostalPat hp
    cases hs : reSearch (s.data.map pyUpper) with
    | none => rw [hs] at hsome; simp at hsome
    | some g =>
      obtain ⟨c0, c1, c2, c3, c4, c5, hcl, -, hn⟩ := normL_of_reSearch_some hs
      exact ⟨c0, c1, c2, c3, c4, c5, hcl, by rw [normalize_postal, hn]⟩
  · intro s hp
    rw [normalize_postal, normL_eq_nil_of_not_hasPostalPat hp]

/-- The claim's own example (hyphen-separated characters) is rejected by
the code: the regex separator class is whitespace only, so
`normalize_postal "  v6t-1z4 , Canada"` is `""`, not `"V6T 1Z4"`. -/
theorem normalize_postal_hyphen_counterexample :
    normalize_postal "  v6t-1z4 , Canada" = "" ∧ ("" : String) ≠ "V6T 1Z4" :=
  ⟨by decide, by decide⟩

theorem normalize_postal_whitespace_pattern_witness :
    normalize_postal "  v6t 1z4 , Canada" = "V6T 1Z4" ∧ normalize_postal "12345" = "" :=
  ⟨(normalize_postal_whitespace_pattern.1 "  v6t 1z4 , Canada"
      [' ', ' '] 'V' [] '6' [] 'T' [' '] '1' [] 'Z' [] '4' (" , CANADA").data
      (by decide) (by decide) (by decide)
      (by decide) (by decide) (by decide) (by decide) (by decide)).trans (by decide),
    normalize_postal_whitespace_pattern.2.2 "12345" (fun hp => by
      have hsome := reSearch_isSome_of_hasPostalPat hp
      exact absurd hsome (by decide))⟩

/-! ### Claim theorems: the routing client credential -/

/-- Claim C2 (corrected): `get_ors_client` does fall back to the ambient
`ORS_API_KEY` environment variable — it raises exactly when the per-job
key is absent or empty AND the ambient variable is empty/unset.  (The UI
layer separately refuses to start without a pasted key; the core function
itself has the fallback.) -/
theorem get_ors_client_error_iff (api_key : Option String) (env_ors : String) :
    (∃ e, get_ors_client api_key env_ors = Except.error e) ↔
      ((api_key = none ∨ api_key = some "") ∧ env_ors = "") := by
  constructor
  · rintro ⟨e, he⟩
    cases api_key with
    | none =>
      rw [get_ors_client] at he
      by_cases h : env_ors = ""
      · exact ⟨Or.inl rfl, h⟩
      · simp [h] at he
    | some s =>
      rw [get_ors_client] at he
      by_cases hs : s = ""
      · subst hs
        by_cases h : env_ors = ""
        · exact ⟨Or.inr rfl, h⟩
        · simp [h] at he
      · simp [hs] at he
  · rintro ⟨h1, h2⟩
    subst h2
    cases h1 with
    | inl h => subst h; exact ⟨"OpenRouteService API key is missing.", rfl⟩
    | inr h => subst h; exact ⟨"OpenRouteService API key is missing.", rfl⟩

/-- The claim as stated is false on the code: with an empty per-job key
but a non-empty ambient `ORS_API_KEY`, `get_ors_client` does not raise —
it silently builds the client from the ambient default credential. -/
theorem get_ors_client_env_fallback_counterexample :
    get_ors_client (some "") "ambient-env-key" = Except.ok "ambient-env-key" := by
  decide

/-! ### Dict-model lemmas -/

theorem dget_dset_self (m : Lookup) (k : String) (v : Coord) :
    dget (dset m k v) k = some v := by
  induction m with
  | nil => simp [dset, dget]
  | cons kv t ih =>
    by_cases h : kv.1 = k
    · simp [dset, dget, h]
    · simp [dset, dget, h, ih]

theorem dget_dset_ne (m : Lookup) {k k' : String} (h : k' ≠ k) (v : Coord) :
    dget (dset m k v) k' = dget m k' := by
  induction m with
  | nil => simp [dset, dget, Ne.symm h]
  | cons kv t ih =>
    by_cases hk : kv.1 = k
    · simp [dset, dget, hk, h, Ne.symm h]
    · by_cases hk' : kv.1 = k'
      · simp [dset, dget, hk, hk', h, Ne.symm h]
      · simp [dset, dget, hk, hk', ih]

theorem dget_nil (k : String) : dget [] k = none := rfl

/-! ### Spaced/unspaced key pairing -/

/-- The spaced key built from six stripped characters: space inserted
after the third character (`alnum[:3] + " " + alnum[3:]`). -/
def spacedKey (a : List Char) : String :=
  String.mk (a.take 3 ++ ' ' :: a.drop 3)

theorem ns_inj {a b : List Char} (h : String.mk a = String.mk b) : a = b := by
  injection h

theorem spacedKey_data_length {a : List Char} (h : a.length = 6) :
    (spacedKey a).data.length = 7 := by
  simp [spacedKey, h]

theorem spacedKey_ne_mk {a b : List Char} (ha : a.length = 6)
    (hb : ∀ x ∈ b, x ≠ ' ') : spacedKey a ≠ String.mk b := by
  intro hh
  have hdata : a.take 3 ++ ' ' :: a.drop 3 = b := ns_inj hh
  have hmem : ' ' ∈ b := by
    rw [← hdata]
    exact List.mem_append_right _ (List.mem_cons_self _ _)
  exact hb ' ' hmem rfl

theorem mk_ne_spacedKey {a b : List Char} (ha : a.length = 6)
    (hb : ∀ x ∈ b, x ≠ ' ') : String.mk b ≠ spacedKey a :=
  fun hh => spacedKey_ne_mk ha hb hh.symm

theorem spacedKey_inj {a b : List Char} (ha : a.length = 6) (hb : b.length = 6)
    (h : spacedKey a = spacedKey b) : a = b := by
  have hdata : a.take 3 ++ ' ' :: a.drop 3 = b.take 3 ++ ' ' :: b.drop 3 := ns_inj h
  have hlen : (a.take 3).length = (b.take 3).length := by
    simp [ha, hb]
  obtain ⟨h1, h2⟩ := List.append_inj hdata hlen
  have h3 : a.drop 3 = b.drop 3 := by injection h2
  calc a = a.take 3 ++ a.drop 3 := (List.take_append_drop 3 a).symm
    _ = b.take 3 ++ b.drop 3 := by rw [h1, h3]
    _ = b := List.take_append_drop 3 b

theorem filter_ne_space_id {l : List Char} (h : ∀ x ∈ l, x ≠ ' ') :
    l.filter (fun c => c != ' ') = l := by
  induction l with
  | nil => rfl
  | cons a t ih =>
    have ha : (a != ' ') = true := by
      simp only [bne_iff_ne, ne_eq]
      exact h a (by simp)
    simp [List.filter, ha, ih (fun x hx => h x (by simp [hx]))]

theorem nospaceS_spacedKey {a : List Char} (ha : a.length = 6)
    (hsp : ∀ x ∈ a, x ≠ ' ') : nospaceS (spacedKey a) = String.mk a := by
  rw [nospaceS, spacedKey]
  congr 1
  rw [show (String.mk (a.take 3 ++ ' ' :: a.drop 3)).data = a.take 3 ++ ' ' :: a.drop 3 from rfl]
  rw [List.filter_append]
  rw [filter_ne_space_id (fun x hx => hsp x (List.mem_of_mem_take hx))]
  rw [List.filter_cons]
  simp only [show ((' ' : Char) != ' ') = false from rfl, if_false]
  rw [filter_ne_space_id (fun x hx => hsp x (List.mem_of_mem_drop hx))]
  exact List.take_append_drop 3 a

/-- `normalize_postal`'s non-empty outputs are spaced keys over six
space-free characters. -/
theorem normalize_postal_key_shape {s : String} (h : normalize_postal s ≠ "") :
    ∃ a : List Char, a.length = 6 ∧ (∀ x ∈ a, x ≠ ' ') ∧
      normalize_postal s = spacedKey a := by
  have hn : normL s.data ≠ [] := by
    intro hh
    exact h (by rw [normalize_postal, hh])
  obtain ⟨c0, c1, c2, c3, c4, c5, hcl, hshape⟩ := normL_shape hn
  obtain ⟨k0, k1, k2, k3, k4, k5⟩ := hcl
  refine ⟨[c0, c1, c2, c3, c4, c5], rfl, ?_, ?_⟩
  · intro x hx
    simp only [List.mem_cons, List.not_mem_nil, or_false] at hx
    rcases hx with rfl | rfl | rfl | rfl | rfl | rfl
    · exact ne_space_of_upper k0
    · exact ne_space_of_digit k1
    · exact ne_space_of_upper k2
    · exact ne_space_of_digit k3
    · exact ne_space_of_upper k4
    · exact ne_space_of_digit k5
  · rw [normalize_postal, hshape]
    rfl

/-- Invariant of the subset loader's accumulated map: every key belongs
to a spaced/unspaced pair over six space-free characters, both keys bound
to the same coordinate pair. -/
def PairedInv (m : Lookup) : Prop :=
  ∀ k v, dget m k = some v → ∃ a : List Char, a.length = 6 ∧ (∀ x ∈ a, x ≠ ' ') ∧
    ((k = spacedKey a ∧ dget m (String.mk a) = some v) ∨
     (k = String.mk a ∧ dget m (spacedKey a) = some v))

theorem pairedInv_nil : PairedInv [] := by
  intro k v hk
  simp [dget] at hk

theorem pairedInv_insert {m : Lookup} (hm : PairedInv m) {a : List Char}
    (ha6 : a.length = 6) (hsp : ∀ x ∈ a, x ≠ ' ') (v : Coord) :
    PairedInv (dset (dset m (spacedKey a) v) (String.mk a) v) := by
  intro k w hk
  by_cases h1 : k = String.mk a
  · subst h1
    rw [dget_dset_self] at hk
    obtain rfl : v = w := Option.some.inj hk
    refine ⟨a, ha6, hsp, Or.inr ⟨rfl, ?_⟩⟩
    rw [dget_dset_ne _ (spacedKey_ne_mk ha6 hsp), dget_dset_self]
  · rw [dget_dset_ne _ h1] at hk
    by_cases h2 : k = spacedKey a
    · subst h2
      rw [dget_dset_self] at hk
      obtain rfl : v = w := Option.some.inj hk
      exact ⟨a, ha6, hsp, Or.inl ⟨rfl, by rw [dget_dset_self]⟩⟩
    · rw [dget_dset_ne _ h2] at hk
      obtain ⟨b, hb6, hbsp, hcase⟩ := hm k w hk
      cases hcase with
      | inl hc =>
        refine ⟨b, hb6, hbsp, Or.inl ⟨hc.1, ?_⟩⟩
        have hba : String.mk b ≠ String.mk a := by
          intro hh
          obtain rfl := ns_inj hh
          exact h2 hc.1
        have hbs : String.mk b ≠ spacedKey a := mk_ne_spacedKey ha6 hbsp
        rw [dget_dset_ne _ hba, dget_dset_ne _ hbs]
        exact hc.2
      | inr hc =>
        refine ⟨b, hb6, hbsp, Or.inr ⟨hc.1, ?_⟩⟩
        have hb1 : spacedKey b ≠ String.mk a := spacedKey_ne_mk hb6 hsp
        have hb2 : spacedKey b ≠ spacedKey a := by
          intro hh
          obtain rfl := spacedKey_inj hb6 ha6 hh
          exact h1 hc.1
        rw [dget_dset_ne _ hb1, dget_dset_ne _ hb2]
        exact hc.2

theorem pairedInv_subsetStep {needed : List String} {m : Lookup} (r : GazRow)
    (hm : PairedInv m) : PairedInv (subsetStep needed m r) := by
  by_cases h0 : normalize_postal r.postal = ""
  · simpa [subsetStep, h0] using hm
  by_cases h1 : normalize_postal r.postal ∉ needed ∧
      nospaceS (normalize_postal r.postal) ∉ needed
  · simpa [subsetStep, h0, h1] using hm
  obtain ⟨a, ha6, hsp, hkey⟩ := normalize_postal_key_shape h0
  cases hlat : parse_float r.lat with
  | none => simpa [subsetStep, h0, h1, hlat] using hm
  | some latf =>
    cases hlon : parse_float r.lon with
    | none => simpa [subsetStep, h0, h1, hlat, hlon] using hm
    | some lonf =>
      have hns : nospaceS (normalize_postal r.postal) = String.mk a := by
        rw [hkey]; exact nospaceS_spacedKey ha6 hsp
      have hstep : subsetStep needed m r =
          dset (dset m (spacedKey a) (latf, lonf)) (String.mk a) (latf, lonf) := by
        simp only [subsetStep, hlat, hlon]
        rw [if_neg h0, if_neg h1, hns, hkey]
      rw [hstep]
      exact pairedInv_insert hm ha6 hsp (latf, lonf)

theorem pairedInv_fold {needed : List String} :
    ∀ (rows : List GazRow) {m : Lookup}, PairedInv m →
      PairedInv (rows.foldl (subsetStep needed) m)
  | [], m, hm => hm
  | r :: rs, m, hm =>
    pairedInv_fold rs (pairedInv_subsetStep r hm)

theorem pairedInv_scan {needed : List String} :
    ∀ (cs : List (List GazRow)) {m : Lookup}, PairedInv m →
      PairedInv (scanChunks needed m cs)
  | [], m, hm => hm
  | c :: cs, m, hm => by
    rw [scanChunks]
    by_cases hf : allFound needed (c.foldl (subsetStep needed) m) = true
    · simpa [hf] using pairedInv_fold c hm
    · simp only [Bool.not_eq_true] at hf
      simpa [hf] using pairedInv_scan cs (pairedInv_fold c hm)

/-- Invariant of the lenient builder's map: every key that contains a
space is the spaced member of a pair whose unspaced member holds the
identical coordinate pair (keys without a space may be singletons). -/
def SpacedInv (m : Lookup) : Prop :=
  ∀ k v, dget m k = some v → ' ' ∈ k.data →
    ∃ a : List Char, a.length = 6 ∧ (∀ x ∈ a, x ≠ ' ') ∧ k = spacedKey a ∧
      dget m (String.mk a) = some v

theorem spacedInv_nil : SpacedInv [] := by
  intro k v hk
  simp [dget] at hk

theorem spacedInv_insert_pair {m : Lookup} (hm : SpacedInv m) {a : List Char}
    (ha6 : a.length = 6) (hsp : ∀ x ∈ a, x ≠ ' ') (v : Coord) :
    SpacedInv (dset (dset m (spacedKey a) v) (String.mk a) v) := by
  intro k w hk hspace
  by_cases h1 : k = String.mk a
  · subst h1
    exact absurd rfl (hsp ' ' hspace)
  · rw [dget_dset_ne _ h1] at hk
    by_cases h2 : k = spacedKey a
    · subst h2
      rw [dget_dset_self] at hk
      obtain rfl : v = w := Option.some.inj hk
      refine ⟨a, ha6, hsp, rfl, by rw [dget_dset_self]⟩
    · rw [dget_dset_ne _ h2] at hk
      obtain ⟨b, hb6, hbsp, hkb, hpart⟩ := hm k w hk hspace
      refine ⟨b, hb6, hbsp, hkb, ?_⟩
      have hba : String.mk b ≠ String.mk a := by
        intro hh
        obtain rfl := ns_inj hh
        exact h2 hkb
      have hbs : String.mk b ≠ spacedKey a := mk_ne_spacedKey ha6 hbsp
      rw [dget_dset_ne _ hba, dget_dset_ne _ hbs]
      exact hpart

theorem spacedInv_insert_spaceless {m : Lookup} (hm : SpacedInv m) {b : List Char}
    (hbsp : ∀ x ∈ b, x ≠ ' ') (hb6 : b.length ≠ 6) (v : Coord) :
    SpacedInv (dset m (String.mk b) v) := by
  intro k w hk hspace
  by_cases h1 : k = String.mk b
  · subst h1
    exact absurd rfl (hbsp ' ' hspace)
  · rw [dget_dset_ne _ h1] at hk
    obtain ⟨a, ha6, hasp, hka, hpart⟩ := hm k w hk hspace
    refine ⟨a, ha6, hasp, hka, ?_⟩
    have hab : String.mk a ≠ String.mk b := by
      intro hh
      obtain rfl := ns_inj hh
      exact hb6 ha6
    rw [dget_dset_ne _ hab]
    exact hpart

theorem spaceless_of_filter_alnum {l : List Char} :
    ∀ x ∈ l.filter isAlnumPy, x ≠ ' ' := by
  intro x hx
  have := List.of_mem_filter hx
  intro hh
  subst hh
  exact absurd this (by decide)

theorem spacedInv_build_step {m : Lookup} (r : GazRow) (hm : SpacedInv m) :
    SpacedInv (build_step m r) := by
  by_cases h0 : ((r.postal.data.map pyUpper).filter isAlnumPy).isEmpty = true
  · simpa [build_step, h0] using hm
  cases hlat : parse_float r.lat with
  | none => simpa [build_step, h0, hlat] using hm
  | some latf =>
    cases hlon : parse_float r.lon with
    | none => simpa [build_step, h0, hlat, hlon] using hm
    | some lonf =>
      have hsp := spaceless_of_filter_alnum (l := r.postal.data.map pyUpper)
      by_cases h6 : ((r.postal.data.map pyUpper).filter isAlnumPy).length = 6
      · have hstep : build_step m r =
            dset (dset m (spacedKey ((r.postal.data.map pyUpper).filter isAlnumPy)) (latf, lonf))
              (String.mk ((r.postal.data.map pyUpper).filter isAlnumPy)) (latf, lonf) := by
          simp only [build_step, hlat, hlon, h0, Bool.false_eq_true, if_false, h6, if_true]
          rfl
        rw [hstep]
        exact spacedInv_insert_pair hm h6 hsp (latf, lonf)
      · have hstep : build_step m r =
            dset (dset m (String.mk ((r.postal.data.map pyUpper).filter isAlnumPy)) (latf, lonf))
              (String.mk ((r.postal.data.map pyUpper).filter isAlnumPy)) (latf, lonf) := by
          simp only [build_step, hlat, hlon, h0, Bool.false_eq_true, if_false, h6, if_true]
        rw [hstep]
        exact spacedInv_insert_spaceless (spacedInv_insert_spaceless hm hsp h6 (latf, lonf))
          hsp h6 (latf, lonf)

theorem spacedInv_build :
    ∀ (rows : List GazRow) {m : Lookup}, SpacedInv m →
      SpacedInv (rows.foldl build_step m)
  | [], m, hm => hm
  | r :: rs, m, hm => spacedInv_build rs (spacedInv_build_step r hm)

/-! ### Claim theorems: Gazetteer Lookup key pairing -/

/-- Claim C4 (corrected): for lookups built by `load_gazetteer_subset`
every key belongs to a spaced/unspaced pair bound to the identical
coordinate pair (both directions).  For `build_postal_lookup_from_df` the
spaced-to-unspaced direction holds, but the converse fails: a row whose
stripped alphanumeric key is not exactly six characters long is stored
under a single space-free key with no spaced twin. -/
theorem lookup_key_pairing :
    (∀ (needed_postals : List String) (rows : List GazRow) (chunksize : Nat)
        (k : String) (v : Coord),
      dget (load_gazetteer_subset needed_postals rows chunksize) k = some v →
      ∃ k', k' ≠ k ∧
        dget (load_gazetteer_subset needed_postals rows chunksize) k' = some v ∧
        (k' = nospaceS k ∨ k = nospaceS k')) ∧
    (∀ (rows : List GazRow) (k : String) (v : Coord),
      dget (build_postal_lookup_from_df rows) k = some v → ' ' ∈ k.data →
      nospaceS k ≠ k ∧ dget (build_postal_lookup_from_df rows) (nospaceS k) = some v) := by
  constructor
  · intro needed rows n k v hk
    have hinv : PairedInv (load_gazetteer_subset needed rows n) := by
      rw [load_gazetteer_subset]
      by_cases hnn : (neededNorm needed).isEmpty = true
      · simp only [hnn, if_true]
        exact pairedInv_nil
      · simp only [hnn, Bool.false_eq_true, if_false]
        exact pairedInv_scan _ pairedInv_nil
    obtain ⟨a, ha6, hsp, hcase⟩ := hinv k v hk
    cases hcase with
    | inl hc =>
      refine ⟨String.mk a, ?_, hc.2, Or.inl ?_⟩
      · rw [hc.1]
        exact mk_ne_spacedKey ha6 hsp
      · rw [hc.1, nospaceS_spacedKey ha6 hsp]
    | inr hc =>
      refine ⟨spacedKey a, ?_, hc.2, Or.inr ?_⟩
      · rw [hc.1]
        exact spacedKey_ne_mk ha6 hsp
      · rw [hc.1]
        exact (nospaceS_spacedKey ha6 hsp).symm
  · intro rows k v hk hspace
    have hinv : SpacedInv (build_postal_lookup_from_df rows) := by
      rw [build_postal_lookup_from_df]
      exact spacedInv_build rows spacedInv_nil
    obtain ⟨a, ha6, hsp, hka, hpart⟩ := hinv k v hk hspace
    constructor
    · rw [hka, nospaceS_spacedKey ha6 hsp]
      exact mk_ne_spacedKey ha6 hsp
    · rw [hka, nospaceS_spacedKey ha6 hsp]
      exact hpart

/-- The claim as stated is false on the lenient builder: a row whose
stripped key has three characters produces a lookup holding that valid
entry under exactly one key ("AB1"), with no second key. -/
theorem build_lookup_single_key_counterexample :
    build_postal_lookup_from_df [⟨"AB1", "1", "2"⟩] = [("AB1", (⟨1, 0⟩, ⟨2, 0⟩))] ∧
    dget (build_postal_lookup_from_df [⟨"AB1", "1", "2"⟩]) "AB 1" = none :=
  ⟨by decide, by decide⟩

theorem lookup_key_pairing_witness :
    (∃ k', k' ≠ "V6T 1Z4" ∧
      dget (load_gazetteer_subset ["v6t 1z4"] [⟨"V6T 1Z4", "49", "-123"⟩] 2) k' =
        some (⟨49, 0⟩, ⟨-123, 0⟩) ∧
      (k' = nospaceS "V6T 1Z4" ∨ "V6T 1Z4" = nospaceS k')) ∧
    (nospaceS "V6T 1Z4" ≠ "V6T 1Z4" ∧
      dget (build_postal_lookup_from_df [⟨"v6t1z4", "49", "-123"⟩]) (nospaceS "V6T 1Z4") =
        some (⟨49, 0⟩, ⟨-123, 0⟩)) :=
  ⟨lookup_key_pairing.1 ["v6t 1z4"] [⟨"V6T 1Z4", "49", "-123"⟩] 2 "V6T 1Z4"
      (⟨49, 0⟩, ⟨-123, 0⟩) (by decide),
    lookup_key_pairing.2 [⟨"v6t1z4", "49", "-123"⟩] "V6T 1Z4"
      (⟨49, 0⟩, ⟨-123, 0⟩) (by decide) (by decide)⟩

/-! ### Claim theorems: chunk-size independence of the subset extractor -/

theorem take_add_split {α : Type} : ∀ (m n : Nat) (l : List α),
    l.take (m + n) = l.take m ++ (l.drop m).take n
  | 0, n, l => by simp
  | m + 1, n, [] => by simp
  | m + 1, n, a :: t => by
    rw [Nat.succ_add, List.take_succ_cons, List.take_succ_cons, List.drop_succ_cons,
      take_add_split m n t, List.cons_append]

theorem chunksOfF_nil (n fuel : Nat) : chunksOfF n fuel [] = [] := by
  cases fuel <;> rfl

theorem scan_chunksOfF_eq_fold (nn : List String) (n : Nat) :
    ∀ (fuel : Nat) (l : List GazRow) (m : Lookup), l.length ≤ fuel →
      (∀ k, k < l.length →
        allFound nn ((l.take k).foldl (subsetStep nn) m) = false) →
      scanChunks nn m (chunksOfF n fuel l) = l.foldl (subsetStep nn) m
  | 0, l, m, hle, _ => by
    have hl : l = [] := List.eq_nil_of_length_eq_zero (Nat.le_zero.mp hle)
    subst hl
    rfl
  | fuel + 1, [], m, _, _ => rfl
  | fuel + 1, r :: rs, m, hle, hH => by
    have hp1 : 1 ≤ max n 1 := Nat.le_max_right n 1
    rw [chunksOfF]
    simp only [scanChunks]
    by_cases hdrop : (r :: rs).drop (max n 1) = []
    · have hlen : (r :: rs).length ≤ max n 1 := List.drop_eq_nil_iff.mp hdrop
      have htake : (r :: rs).take (max n 1) = r :: rs := List.take_of_length_le hlen
      rw [hdrop, htake]
      by_cases hf : allFound nn ((r :: rs).foldl (subsetStep nn) m) = true
      · rw [if_pos hf]
      · rw [if_neg hf, chunksOfF_nil]
        rfl
    · have hplt : max n 1 < (r :: rs).length := by
        have := mt List.drop_eq_nil_iff.mpr hdrop
        omega
      have hfalse : allFound nn (((r :: rs).take (max n 1)).foldl (subsetStep nn) m) = false :=
        hH (max n 1) hplt
      rw [if_neg (by rw [hfalse]; exact Bool.false_ne_true)]
      have hlen2 : ((r :: rs).drop (max n 1)).length ≤ fuel := by
        rw [List.length_drop]
        simp only [List.length_cons] at hle ⊢
        omega
      have hH2 : ∀ k, k < ((r :: rs).drop (max n 1)).length →
          allFound nn ((((r :: rs).drop (max n 1)).take k).foldl (subsetStep nn)
            (((r :: rs).take (max n 1)).foldl (subsetStep nn) m)) = false := by
        intro k hk
        rw [← List.foldl_append, ← take_add_split]
        apply hH
        rw [List.length_drop] at hk
        omega
      rw [scan_chunksOfF_eq_fold nn n fuel _ _ hlen2 hH2]
      rw [← List.foldl_append, List.take_append_drop]

/-- Claim C3: with two positive chunk sizes and a needed-set that is not
fully satisfied at any proper prefix of the source (so no
early-termination-induced partial result), the subset extractor returns
the identical lookup map. -/
theorem load_gazetteer_subset_chunksize_independent
    (needed_postals : List String) (rows : List GazRow) (n₁ n₂ : Nat)
    (h₁ : 0 < n₁) (h₂ : 0 < n₂)
    (hH : ∀ k, k < rows.length →
      allFound (neededNorm needed_postals)
        ((rows.take k).foldl (subsetStep (neededNorm needed_postals)) []) = false) :
    load_gazetteer_subset needed_postals rows n₁ =
      load_gazetteer_subset needed_postals rows n₂ := by
  rw [load_gazetteer_subset, load_gazetteer_subset]
  by_cases hnn : (neededNorm needed_postals).isEmpty = true
  · simp [hnn]
  · simp only [hnn, Bool.false_eq_true, if_false]
    rw [chunksOf, chunksOf]
    rw [scan_chunksOfF_eq_fold _ n₁ rows.length rows [] (Nat.le_refl _) hH]
    rw [scan_chunksOfF_eq_fold _ n₂ rows.length rows [] (Nat.le_refl _) hH]

theorem load_gazetteer_subset_chunksize_independent_witness :
    0 < 1 ∧ 0 < 2 ∧
    load_gazetteer_subset ["v6t 1z4"] [⟨"A1A 1A1", "1", "2"⟩, ⟨"V6T 1Z4", "49", "-123"⟩] 1 =
      load_gazetteer_subset ["v6t 1z4"] [⟨"A1A 1A1", "1", "2"⟩, ⟨"V6T 1Z4", "49", "-123"⟩] 2 :=
  ⟨by decide, by decide,
    load_gazetteer_subset_chunksize_independent ["v6t 1z4"]
      [⟨"A1A 1A1", "1", "2"⟩, ⟨"V6T 1Z4", "49", "-123"⟩] 1 2
      (by decide) (by decide) (by decide)⟩

/-! ### Claim theorems: the subset relation of the extractor -/

/-- Row `r` contributed the binding `k ↦ v`: its postal strictly
normalizes to a key that passed the needed-set filter, `k` is that key or
its unspaced variant, and its coordinates parsed to exactly `v`. -/
def ContribRow (needed : List String) (r : GazRow) (k : String) (v : Coord) : Prop :=
  normalize_postal r.postal ≠ "" ∧
  (k = normalize_postal r.postal ∨ k = nospaceS (normalize_postal r.postal)) ∧
  (normalize_postal r.postal ∈ needed ∨ nospaceS (normalize_postal r.postal) ∈ needed) ∧
  parse_float r.lat = some v.1 ∧ parse_float r.lon = some v.2

theorem subsetStep_prov {needed : List String} {m : Lookup} {r : GazRow}
    {k : String} {v : Coord} (h : dget (subsetStep needed m r) k = some v) :
    dget m k = some v ∨ ContribRow needed r k v := by
  by_cases h0 : normalize_postal r.postal = ""
  · rw [show subsetStep needed m r = m by simp [subsetStep, h0]] at h
    exact Or.inl h
  by_cases h1 : normalize_postal r.postal ∉ needed ∧
      nospaceS (normalize_postal r.postal) ∉ needed
  · rw [show subsetStep needed m r = m by simp [subsetStep, h0, h1]] at h
    exact Or.inl h
  have hmem : normalize_postal r.postal ∈ needed ∨
      nospaceS (normalize_postal r.postal) ∈ needed := by
    rcases not_and_or.mp h1 with hh | hh
    · exact Or.inl (not_not.mp hh)
    · exact Or.inr (not_not.mp hh)
  cases hlat : parse_float r.lat with
  | none =>
    rw [show subsetStep needed m r = m by simp [subsetStep, h0, h1, hlat]] at h
    exact Or.inl h
  | some latf =>
    cases hlon : parse_float r.lon with
    | none =>
      rw [show subsetStep needed m r = m by simp [subsetStep, h0, h1, hlat, hlon]] at h
      exact Or.inl h
    | some lonf =>
      have hstep : subsetStep needed m r =
          dset (dset m (normalize_postal r.postal) (latf, lonf))
            (nospaceS (normalize_postal r.postal)) (latf, lonf) := by
        simp only [subsetStep, hlat, hlon]
        rw [if_neg h0, if_neg h1]
      rw [hstep] at h
      by_cases hk1 : k = nospaceS (normalize_postal r.postal)
      · subst hk1
        rw [dget_dset_self] at h
        obtain rfl : (latf, lonf) = v := Option.some.inj h
        exact Or.inr ⟨h0, Or.inr rfl, hmem, hlat, hlon⟩
      · rw [dget_dset_ne _ hk1] at h
        by_cases hk2 : k = normalize_postal r.postal
        · subst hk2
          rw [dget_dset_self] at h
          obtain rfl : (latf, lonf) = v := Option.some.inj h
          exact Or.inr ⟨h0, Or.inl rfl, hmem, hlat, hlon⟩
        · rw [dget_dset_ne _ hk2] at h
          exact Or.inl h

theorem fold_prov {needed : List String} :
    ∀ {rows : List GazRow} {m : Lookup} {k : String} {v : Coord},
      dget (rows.foldl (subsetStep needed) m) k = some v →
      dget m k = some v ∨ ∃ r ∈ rows, ContribRow needed r k v := by
  intro rows
  induction rows with
  | nil => intro m k v h; exact Or.inl h
  | cons r rs ih =>
    intro m k v h
    rw [List.foldl_cons] at h
    rcases ih h with hm | ⟨r', hr', hc⟩
    · rcases subsetStep_prov hm with hm' | hc
      · exact Or.inl hm'
      · exact Or.inr ⟨r, by simp, hc⟩
    · exact Or.inr ⟨r', by simp [hr'], hc⟩

theorem scan_prov {needed : List String} :
    ∀ {cs : List (List GazRow)} {m : Lookup} {k : String} {v : Coord},
      dget (scanChunks needed m cs) k = some v →
      dget m k = some v ∨ ∃ c ∈ cs, ∃ r ∈ c, ContribRow needed r k v := by
  intro cs
  induction cs with
  | nil => intro m k v h; exact Or.inl h
  | cons c cs ih =>
    intro m k v h
    rw [scanChunks] at h
    by_cases hf : allFound needed (c.foldl (subsetStep needed) m) = true
    · rw [if_pos hf] at h
      rcases fold_prov h with hm | ⟨r, hr, hc⟩
      · exact Or.inl hm
      · exact Or.inr ⟨c, by simp, r, hr, hc⟩
    · rw [if_neg hf] at h
      rcases ih h with hm | ⟨c', hc', r, hr, hcon⟩
      · rcases fold_prov hm with hm' | ⟨r, hr, hc⟩
        · exact Or.inl hm'
        · exact Or.inr ⟨c, by simp, r, hr, hc⟩
      · exact Or.inr ⟨c', by simp [hc'], r, hr, hcon⟩

theorem mem_of_mem_chunksOfF {n : Nat} :
    ∀ {fuel : Nat} {l : List GazRow} {c : List GazRow} {r : GazRow},
      c ∈ chunksOfF n fuel l → r ∈ c → r ∈ l
  | 0, l, c, r => by
    intro hc hr
    cases l with
    | nil => simp [chunksOfF] at hc
    | cons x xs => simp [chunksOfF] at hc
  | fuel + 1, l, c, r => by
    intro hc hr
    cases l with
    | nil => simp [chunksOfF] at hc
    | cons x xs =>
      rw [chunksOfF] at hc
      rcases List.mem_cons.mp hc with hc1 | hc2
      · subst hc1
        exact List.mem_of_mem_take hr
      · exact List.mem_of_mem_drop (mem_of_mem_chunksOfF hc2 hr)

/-- Claim C5: every binding of the subset-extractor's result comes from a
source row whose postal value strictly normalizes to a key that passed
the needed-set filter (its spaced or unspaced variant lies in the
normalized closure of the request), the stored key is that key or its
unspaced variant, and the stored pair is exactly the row's parsed
coordinates — no other rows contribute entries. -/
theorem load_gazetteer_subset_subset_relation
    (needed_postals : List String) (rows : List GazRow) (chunksize : Nat)
    (k : String) (v : Coord)
    (hk : dget (load_gazetteer_subset needed_postals rows chunksize) k = some v) :
    ∃ r ∈ rows, normalize_postal r.postal ≠ "" ∧
      (k = normalize_postal r.postal ∨ k = nospaceS (normalize_postal r.postal)) ∧
      (normalize_postal r.postal ∈ neededNorm needed_postals ∨
        nospaceS (normalize_postal r.postal) ∈ neededNorm needed_postals) ∧
      parse_float r.lat = some v.1 ∧ parse_float r.lon = some v.2 := by
  rw [load_gazetteer_subset] at hk
  by_cases hnn : (neededNorm needed_postals).isEmpty = true
  · rw [if_pos hnn] at hk
    simp [dget] at hk
  · rw [if_neg hnn] at hk
    rcases scan_prov hk with hm | ⟨c, hc, r, hr, hcon⟩
    · simp [dget] at hm
    · exact ⟨r, mem_of_mem_chunksOfF hc hr, hcon⟩

theorem load_gazetteer_subset_subset_relation_witness :
    ∃ r ∈ [(⟨"A1A 1A1", "1", "2"⟩ : GazRow), ⟨"V6T 1Z4", "49", "-123"⟩],
      normalize_postal r.postal ≠ "" ∧
      ("V6T1Z4" = normalize_postal r.postal ∨
        "V6T1Z4" = nospaceS (normalize_postal r.postal)) ∧
      (normalize_postal r.postal ∈ neededNorm ["v6t 1z4"] ∨
        nospaceS (normalize_postal r.postal) ∈ neededNorm ["v6t 1z4"]) ∧
      parse_float r.lat = some (⟨49, 0⟩ : Dec) ∧
      parse_float r.lon = some (⟨-123, 0⟩ : Dec) :=
  load_gazetteer_subset_subset_relation ["v6t 1z4"]
    [⟨"A1A 1A1", "1", "2"⟩, ⟨"V6T 1Z4", "49", "-123"⟩] 1 "V6T1Z4"
    (⟨49, 0⟩, ⟨-123, 0⟩) (by decide)

/-! ### Claim theorems: the Batch Distance Resolver -/

/-- The per-row destination key: `normalize_postal` of the row's postal
cell (empty string when the column is absent), lines 225–226 of
`core.py`. -/
def destKey (postal_col : String) (rec : Rec) : String :=
  normalize_postal (match rget rec postal_col with | none => "" | some s => s)

/-- The output row recorded for a row with no usable destination. -/
def invalidOut (rec : Rec) : OutRec :=
  vset (vset (rec.map (fun kv => (kv.1, Val.vstr kv.2))) "distance_km" Val.vnone)
    "error" (Val.vstr "Invalid Postal Code")

theorem processRow_invalid (svc : Coord → Coord → Except String Dec) (origin : Coord)
    {lookup : Lookup} {postal_col : String} {rec : Rec}
    (h : destKey postal_col rec = "" ∨ dget lookup (destKey postal_col rec) = none) :
    processRow svc origin lookup postal_col rec = invalidOut rec := by
  rw [destKey] at h
  rcases h with h | h
  · simp only [processRow, invalidOut, h, if_pos]
  · by_cases h0 : normalize_postal (match rget rec postal_col with
        | none => "" | some s => s) = ""
    · simp only [processRow, invalidOut, h0, if_pos]
    · simp only [processRow, invalidOut, if_neg h0, h]

theorem processRow_service_error (svc : Coord → Coord → Except String Dec)
    (origin : Coord) {lookup : Lookup} {postal_col : String} {rec : Rec}
    {latf lonf : Dec} {e : String}
    (h0 : destKey postal_col rec ≠ "")
    (h1 : dget lookup (destKey postal_col rec) = some (latf, lonf))
    (h2 : svc origin (lonf, latf) = Except.error e) :
    processRow svc origin lookup postal_col rec =
      vset (vset (rec.map (fun kv => (kv.1, Val.vstr kv.2))) "distance_km" Val.vnone)
        "error" (Val.vstr ("Routing error: " ++ e)) := by
  rw [destKey] at h0 h1
  simp only [processRow, if_neg h0, h1, h2]

theorem processRow_service_ok (svc : Coord → Coord → Except String Dec)
    (origin : Coord) {lookup : Lookup} {postal_col : String} {rec : Rec}
    {latf lonf d : Dec}
    (h0 : destKey postal_col rec ≠ "")
    (h1 : dget lookup (destKey postal_col rec) = some (latf, lonf))
    (h2 : svc origin (lonf, latf) = Except.ok d) :
    processRow svc origin lookup postal_col rec =
      vset (vset (rec.map (fun kv => (kv.1, Val.vstr kv.2))) "distance_km" (Val.vnum d))
        "error" (Val.vstr "") := by
  rw [destKey] at h0 h1
  simp only [processRow, if_neg h0, h1, h2]

/-- With a non-empty per-job key the resolver runs a single pass: exactly
one output row per input row, in order, each produced independently by
`processRow`; no row's failure aborts the batch. -/
theorem process_dataframe_eq_map (svc : Coord → Coord → Except String Dec)
    (df : List Rec) (study_id_col postal_col : String) (origin_lon origin_lat : Dec)
    (postal_lookup : Lookup) {api_key : String} (env_ors : String) (sleep_s : Dec)
    (hkey : api_key ≠ "") :
    process_dataframe svc df study_id_col postal_col origin_lon origin_lat
        postal_lookup api_key env_ors sleep_s =
      Except.ok (df.map (processRow svc (origin_lon, origin_lat) postal_lookup
        (String.mk (pyStrip postal_col.data)))) := by
  have hclient : get_ors_client (some api_key) env_ors = Except.ok api_key := by
    rw [get_ors_client]
    simp [hkey]
  simp only [process_dataframe, hclient]

/-- Claim C6: a study row whose destination fails to normalize, or whose
normalized key is absent from the lookup, is recorded with no distance
and the error string "Invalid Postal Code"; the recorded row does not
depend on the routing service at all (no routing call is attempted), and
the batch is a single independent pass, so processing continues with the
remaining rows. -/
theorem process_invalid_postal_code :
    (∀ (svc : Coord → Coord → Except String Dec) (origin : Coord) (lookup : Lookup)
        (postal_col : String) (rec : Rec),
      destKey postal_col rec = "" ∨ dget lookup (destKey postal_col rec) = none →
      processRow svc origin lookup postal_col rec = invalidOut rec) ∧
    (∀ (svc : Coord → Coord → Except String Dec) (df : List Rec)
        (study_id_col postal_col : String) (origin_lon origin_lat : Dec)
        (lookup : Lookup) (api_key env_ors : String) (sleep_s : Dec),
      api_key ≠ "" →
      process_dataframe svc df study_id_col postal_col origin_lon origin_lat lookup
          api_key env_ors sleep_s =
        Except.ok (df.map (processRow svc (origin_lon, origin_lat) lookup
          (String.mk (pyStrip postal_col.data))))) :=
  ⟨fun svc origin _ _ _ h => processRow_invalid svc origin h,
   fun svc df sid pcol olon olat lookup _ env sl hk =>
     process_dataframe_eq_map svc df sid pcol olon olat lookup env sl hk⟩

theorem process_invalid_postal_code_witness :
    processRow (fun _ _ => Except.ok ⟨42, 0⟩) (⟨-119, 0⟩, ⟨49, 0⟩)
        [("V6T 1Z4", (⟨49, 0⟩, ⟨-123, 0⟩))] "pc" [("id", "1"), ("pc", "ZZZ999")] =
      invalidOut [("id", "1"), ("pc", "ZZZ999")] ∧
    process_dataframe (fun _ _ => Except.ok ⟨42, 0⟩)
        [[("id", "1"), ("pc", "ZZZ999")], [("id", "2"), ("pc", "V6T 1Z4")]]
        "id" "pc" ⟨-119, 0⟩ ⟨49, 0⟩ [("V6T 1Z4", (⟨49, 0⟩, ⟨-123, 0⟩))] "key" "" ⟨1, 0⟩ =
      Except.ok [invalidOut [("id", "1"), ("pc", "ZZZ999")],
        [("id", Val.vstr "2"), ("pc", Val.vstr "V6T 1Z4"),
          ("distance_km", Val.vnum ⟨42, 0⟩), ("error", Val.vstr "")]] :=
  ⟨process_invalid_postal_code.1 _ _ _ _ _ (by decide),
   (process_invalid_postal_code.2 (fun _ _ => Except.ok ⟨42, 0⟩)
      [[("id", "1"), ("pc", "ZZZ999")], [("id", "2"), ("pc", "V6T 1Z4")]]
      "id" "pc" ⟨-119, 0⟩ ⟨49, 0⟩ [("V6T 1Z4", (⟨49, 0⟩, ⟨-123, 0⟩))] "key" "" ⟨1, 0⟩
      (by decide)).trans (by decide)⟩

/-- Claim C7: when the routing call fails, the failure is caught, the row
records no distance and an error string embedding the cause (prefixed
"Routing error: "), and the batch — a single independent pass over all
rows — is not aborted. -/
theorem process_routing_error :
    (∀ (svc : Coord → Coord → Except String Dec) (origin : Coord) (lookup : Lookup)
        (postal_col : String) (rec : Rec) (latf lonf : Dec) (e : String),
      destKey postal_col rec ≠ "" →
      dget lookup (destKey postal_col rec) = some (latf, lonf) →
      svc origin (lonf, latf) = Except.error e →
      processRow svc origin lookup postal_col rec =
        vset (vset (rec.map (fun kv => (kv.1, Val.vstr kv.2))) "distance_km" Val.vnone)
          "error" (Val.vstr ("Routing error: " ++ e))) ∧
    (∀ (svc : Coord → Coord → Except String Dec) (df : List Rec)
        (study_id_col postal_col : String) (origin_lon origin_lat : Dec)
        (lookup : Lookup) (api_key env_ors : String) (sleep_s : Dec),
      api_key ≠ "" →
      process_dataframe svc df study_id_col postal_col origin_lon origin_lat lookup
          api_key env_ors sleep_s =
        Except.ok (df.map (processRow svc (origin_lon, origin_lat) lookup
          (String.mk (pyStrip postal_col.data))))) :=
  ⟨fun svc origin _ _ _ _ _ _ h0 h1 h2 => processRow_service_error svc origin h0 h1 h2,
   fun svc df sid pcol olon olat lookup _ env sl hk =>
     process_dataframe_eq_map svc df sid pcol olon olat lookup env sl hk⟩

theorem process_routing_error_witness :
    processRow (fun _ _ => Except.error "simulated network failure") (⟨-119, 0⟩, ⟨49, 0⟩)
        [("V6T 1Z4", (⟨49, 0⟩, ⟨-123, 0⟩))] "pc" [("id", "1"), ("pc", "V6T 1Z4")] =
      vset (vset ([("id", "1"), ("pc", "V6T 1Z4")].map (fun kv => (kv.1, Val.vstr kv.2)))
          "distance_km" Val.vnone)
        "error" (Val.vstr ("Routing error: " ++ "simulated network failure")) ∧
    process_dataframe (fun _ _ => Except.error "simulated network failure")
        [[("id", "1"), ("pc", "V6T 1Z4")], [("id", "2"), ("pc", "V6T 1Z4")]]
        "id" "pc" ⟨-119, 0⟩ ⟨49, 0⟩ [("V6T 1Z4", (⟨49, 0⟩, ⟨-123, 0⟩))] "key" "" ⟨1, 0⟩ =
      Except.ok [
        [("id", Val.vstr "1"), ("pc", Val.vstr "V6T 1Z4"), ("distance_km", Val.vnone),
          ("error", Val.vstr "Routing error: simulated network failure")],
        [("id", Val.vstr "2"), ("pc", Val.vstr "V6T 1Z4"), ("distance_km", Val.vnone),
          ("error", Val.vstr "Routing error: simulated network failure")]] :=
  ⟨process_routing_error.1 (fun _ _ => Except.error "simulated network failure")
      (⟨-119, 0⟩, ⟨49, 0⟩) [("V6T 1Z4", (⟨49, 0⟩, ⟨-123, 0⟩))] "pc"
      [("id", "1"), ("pc", "V6T 1Z4")] ⟨49, 0⟩ ⟨-123, 0⟩ "simulated network failure"
      (by decide) (by decide) (by decide),
   (process_routing_error.2 (fun _ _ => Except.error "simulated network failure")
      [[("id", "1"), ("pc", "V6T 1Z4")], [("id", "2"), ("pc", "V6T 1Z4")]]
      "id" "pc" ⟨-119, 0⟩ ⟨49, 0⟩ [("V6T 1Z4", (⟨49, 0⟩, ⟨-123, 0⟩))] "key" "" ⟨1, 0⟩
      (by decide)).trans (by decide)⟩

/-- Claim C10: the resolver consults the lookup only under the spaced
canonical key produced by `normalize_postal`, never under the unspaced
variant: a destination whose code is present only under its unspaced key
is recorded as "Invalid Postal Code" (no distance, no routing call —
the output does not depend on the routing service) even though a
coordinate pair for that code exists in the lookup. -/
theorem process_spaced_key_only (svc : Coord → Coord → Except String Dec)
    (origin : Coord) (lookup : Lookup) (postal_col : String) (rec : Rec)
    (pair : Coord)
    (h0 : destKey postal_col rec ≠ "")
    (h1 : dget lookup (destKey postal_col rec) = none)
    (h2 : dget lookup (nospaceS (destKey postal_col rec)) = some pair) :
    processRow svc origin lookup postal_col rec = invalidOut rec :=
  processRow_invalid svc origin (Or.inr h1)

theorem process_spaced_key_only_witness :
    destKey "pc" [("id", "1"), ("pc", "V6T 1Z4")] ≠ "" ∧
    dget [("V6T1Z4", ((⟨49, 0⟩ : Dec), (⟨-123, 0⟩ : Dec)))]
      (destKey "pc" [("id", "1"), ("pc", "V6T 1Z4")]) = none ∧
    dget [("V6T1Z4", ((⟨49, 0⟩ : Dec), (⟨-123, 0⟩ : Dec)))]
      (nospaceS (destKey "pc" [("id", "1"), ("pc", "V6T 1Z4")])) =
        some (⟨49, 0⟩, ⟨-123, 0⟩) ∧
    processRow (fun _ _ => Except.ok ⟨42, 0⟩) (⟨-119, 0⟩, ⟨49, 0⟩)
        [("V6T1Z4", (⟨49, 0⟩, ⟨-123, 0⟩))] "pc" [("id", "1"), ("pc", "V6T 1Z4")] =
      invalidOut [("id", "1"), ("pc", "V6T 1Z4")] :=
  ⟨by decide, by decide, by decide,
    process_spaced_key_only (fun _ _ => Except.ok ⟨42, 0⟩) (⟨-119, 0⟩, ⟨49, 0⟩)
      [("V6T1Z4", (⟨49, 0⟩, ⟨-123, 0⟩))] "pc" [("id", "1"), ("pc", "V6T 1Z4")]
      (⟨49, 0⟩, ⟨-123, 0⟩) (by decide) (by decide) (by decide)⟩

theorem vset_append {o : OutRec} {k : String} (h : ∀ kv ∈ o, kv.1 ≠ k) (v : Val) :
    vset o k v = o ++ [(k, v)] := by
  induction o with
  | nil => rfl
  | cons kv t ih =>
    have hk : kv.1 ≠ k := h kv (by simp)
    simp [vset, hk, ih (fun x hx => h x (by simp [hx]))]

theorem vset_frame {rec : Rec}
    (h : ∀ kv ∈ rec, kv.1 ≠ "distance_km" ∧ kv.1 ≠ "error") (x : Val) (er : String) :
    vset (vset (rec.map (fun kv => (kv.1, Val.vstr kv.2))) "distance_km" x)
        "error" (Val.vstr er) =
      rec.map (fun kv => (kv.1, Val.vstr kv.2)) ++
        [("distance_km", x), ("error", Val.vstr er)] := by
  have hd : ∀ kv ∈ rec.map (fun kv => (kv.1, Val.vstr kv.2)), kv.1 ≠ "distance_km" := by
    intro kv hkv
    obtain ⟨kv', hmem, hEq⟩ := List.mem_map.mp hkv
    rw [← hEq]
    exact (h kv' hmem).1
  have he : ∀ kv ∈ rec.map (fun kv => (kv.1, Val.vstr kv.2)) ++ [("distance_km", x)],
      kv.1 ≠ "error" := by
    intro kv hkv
    rcases List.mem_append.mp hkv with hkv | hkv
    · obtain ⟨kv', hmem, hEq⟩ := List.mem_map.mp hkv
      rw [← hEq]
      exact (h kv' hmem).2
    · simp only [List.mem_singleton] at hkv
      rw [hkv]
      simp
  rw [vset_append hd x, vset_append he (Val.vstr er), List.append_assoc]
  rfl

theorem processRow_frame (svc : Coord → Coord → Except String Dec) (origin : Coord)
    (lookup : Lookup) (postal_col : String) {rec : Rec}
    (h : ∀ kv ∈ rec, kv.1 ≠ "distance_km" ∧ kv.1 ≠ "error") :
    ∃ d er, processRow svc origin lookup postal_col rec =
      rec.map (fun kv => (kv.1, Val.vstr kv.2)) ++
        [("distance_km", d), ("error", Val.vstr er)] := by
  by_cases h0 : destKey postal_col rec = ""
  · refine ⟨Val.vnone, "Invalid Postal Code", ?_⟩
    rw [processRow_invalid svc origin (Or.inl h0)]
    simp only [invalidOut]
    exact vset_frame h _ _
  · cases h1 : dget lookup (destKey postal_col rec) with
    | none =>
      refine ⟨Val.vnone, "Invalid Postal Code", ?_⟩
      rw [processRow_invalid svc origin (Or.inr h1)]
      simp only [invalidOut]
      exact vset_frame h _ _
    | some lalo =>
      obtain ⟨latf, lonf⟩ := lalo
      cases h2 : svc origin (lonf, latf) with
      | ok d =>
        refine ⟨Val.vnum d, "", ?_⟩
        rw [processRow_service_ok svc origin h0 h1 h2]
        exact vset_frame h _ _
      | error e =>
        refine ⟨Val.vnone, "Routing error: " ++ e, ?_⟩
        rw [processRow_service_error svc origin h0 h1 h2]
        exact vset_frame h _ _

/-- Claim C8 (corrected): with a usable credential and provided no input
column bears one of the reserved names `distance_km` / `error`, the
resolver produces exactly one output row per input row, in order, with
every original column's value passed through unchanged and exactly two
columns appended: `distance_km` (numeric or absent) and `error` (a
string).  Input columns named `distance_km` or `error` are instead
overwritten in place and their original values lost. -/
theorem process_dataframe_frame_shape
    (svc : Coord → Coord → Except String Dec) (df : List Rec)
    (study_id_col postal_col : String) (origin_lon origin_lat : Dec)
    (postal_lookup : Lookup) (api_key env_ors : String) (sleep_s : Dec)
    (hkey : api_key ≠ "")
    (hcols : ∀ rec ∈ df, ∀ kv ∈ rec, kv.1 ≠ "distance_km" ∧ kv.1 ≠ "error") :
    ∃ out, process_dataframe svc df study_id_col postal_col origin_lon origin_lat
        postal_lookup api_key env_ors sleep_s = Except.ok out ∧
      List.Forall₂ (fun (rec : Rec) (orec : OutRec) => ∃ d er,
        orec = rec.map (fun kv => (kv.1, Val.vstr kv.2)) ++
          [("distance_km", d), ("error", Val.vstr er)]) df out := by
  refine ⟨df.map (processRow svc (origin_lon, origin_lat) postal_lookup
      (String.mk (pyStrip postal_col.data))),
    process_dataframe_eq_map svc df study_id_col postal_col origin_lon origin_lat
      postal_lookup env_ors sleep_s hkey, ?_⟩
  rw [List.forall₂_map_right_iff]
  rw [List.forall₂_same]
  intro rec hrec
  exact processRow_frame _ _ _ _ (hcols rec hrec)

/-- The claim as stated is false for tables that already contain a column
named `distance_km`: its original value ("keepme") is overwritten in
place rather than passed through, and only one new column is appended. -/
theorem process_dataframe_reserved_column_counterexample :
    process_dataframe (fun _ _ => Except.ok ⟨42, 0⟩) [[("distance_km", "keepme")]]
        "id" "pc" ⟨0, 0⟩ ⟨0, 0⟩ [] "key" "" ⟨1, 0⟩ =
      Except.ok [[("distance_km", Val.vnone), ("error", Val.vstr "Invalid Postal Code")]] := by
  decide

theorem process_dataframe_frame_shape_witness :
    ∃ out, process_dataframe (fun _ _ => Except.ok ⟨42, 0⟩)
        [[("id", "1"), ("pc", "V6T 1Z4")]] "id" "pc" ⟨-119, 0⟩ ⟨49, 0⟩
        [("V6T 1Z4", (⟨49, 0⟩, ⟨-123, 0⟩))] "key" "" ⟨1, 0⟩ = Except.ok out ∧
      List.Forall₂ (fun (rec : Rec) (orec : OutRec) => ∃ d er,
        orec = rec.map (fun kv => (kv.1, Val.vstr kv.2)) ++
          [("distance_km", d), ("error", Val.vstr er)])
        [[("id", "1"), ("pc", "V6T 1Z4")]] out :=
  process_dataframe_frame_shape (fun _ _ => Except.ok ⟨42, 0⟩)
    [[("id", "1"), ("pc", "V6T 1Z4")]] "id" "pc" ⟨-119, 0⟩ ⟨49, 0⟩
    [("V6T 1Z4", (⟨49, 0⟩, ⟨-123, 0⟩))] "key" "" ⟨1, 0⟩ (by decide) (by decide)
